import Mathlib

/-!
Shallow embedding of the lead-classification pipeline
(repository `lead-classification-automation`, file `src/index.js`, batched
variant).  External effects (the Supabase existence query and insert, the
classification service, the webhook endpoint) are modelled as explicit
outcome parameters, so each JS function becomes a pure Lean function of its
inputs and of the outcomes of the calls it performs.  Asynchronous execution
is modelled denotationally: `runWithConcurrency` processes consecutive
chunks, awaiting each whole chunk, so its result is the chunk-wise map; the
external requests a run issues are collected in an explicit trace.
-/

namespace LeadPipeline

/-- One CSV row: the fields the pipeline reads
(`First Name`, `Last Name`, `Job Title`, `Company`, `Email`, `Phone`). -/
structure InputRecord where
  firstName : String
  lastName : String
  jobTitle : String
  company : String
  email : String
  phone : String
deriving DecidableEq, Repr

/-- `runWithConcurrency(items, concurrency, fn)`: the loop
`for (let i = 0; i < items.length; i += concurrency)` slices the next
`concurrency` items, awaits `Promise.all(batch.map(fn))` and appends the
batch results in order.  With a pure per-item operation `f` this is the
chunk-wise map.  For `concurrency = 0` the JS loop never terminates; the
program only calls it with `CONCURRENCY = 5`, and we model only the
terminating domain `concurrency ≥ 1`, returning `[]` outside it. -/
def runWithConcurrency (items : List α) (concurrency : Nat) (f : α → β) : List β :=
  match items with
  | [] => []
  | x :: xs =>
    if hc : concurrency = 0 then []
    else
      ((x :: xs).take concurrency).map f ++
        runWithConcurrency ((x :: xs).drop concurrency) concurrency f
termination_by items.length
decreasing_by
  simp only [List.length_drop, List.length_cons]
  omega

/-- The consecutive batches the `runWithConcurrency` loop awaits:
slices of `concurrency` items, in order. -/
def chunks (concurrency : Nat) (items : List α) : List (List α) :=
  match items with
  | [] => []
  | x :: xs =>
    if hc : concurrency = 0 then []
    else (x :: xs).take concurrency :: chunks concurrency ((x :: xs).drop concurrency)
termination_by items.length
decreasing_by
  simp only [List.length_drop, List.length_cons]
  omega

/-- Outcome of the single bulk existence query
`supabase.from('leads').select('email').in('email', emails)`: the returned
rows (modelled by their `email` values, the only column selected), a result
with `error` set, or a thrown exception. -/
inductive StoreResponse
  | ok (emails : List String)
  | errorResult
  | thrown
deriving DecidableEq, Repr

/-- The value `{ newLeads, duplicateCount }` returned by `filterDuplicates`. -/
structure FilterResult where
  newLeads : List InputRecord
  duplicateCount : Nat
deriving DecidableEq, Repr

/-- One iteration of the `for (const lead of leads)` loop in
`filterDuplicates`: a lead whose email is in `existingEmails` bumps
`duplicateCount`, any other lead is pushed onto `newLeads`. -/
def dedupStep (existingEmails : List String) (acc : List InputRecord × Nat)
    (lead : InputRecord) : List InputRecord × Nat :=
  if existingEmails.contains lead.email then (acc.1, acc.2 + 1)
  else (acc.1 ++ [lead], acc.2)

/-- `filterDuplicates(leads)`: collect the batch's emails, issue one bulk
existence query, and on success filter the batch against the returned email
set; if the query reports an error or throws, return the whole batch with
`duplicateCount = 0`. -/
def filterDuplicates (leads : List InputRecord) (resp : StoreResponse) :
    FilterResult :=
  match resp with
  | .errorResult => ⟨leads, 0⟩
  | .thrown => ⟨leads, 0⟩
  | .ok emails =>
    let r := leads.foldl (dedupStep emails) ([], 0)
    ⟨r.1, r.2⟩

/-- Whitespace trimming as performed by `classification.trim()`. -/
def jsTrim (s : String) : String :=
  ⟨((s.data.dropWhile Char.isWhitespace).reverse.dropWhile
      Char.isWhitespace).reverse⟩

/-- Does the text begin with `Persona d` for a digit `d` between 1 and 4 —
the anchored head of the pattern `/Persona [1-4]/`. -/
def personaTokenHead : List Char → Bool
  | 'P' :: 'e' :: 'r' :: 's' :: 'o' :: 'n' :: 'a' :: ' ' :: d :: _ =>
      d = '1' || d = '2' || d = '3' || d = '4'
  | _ => false

/-- `classification.match(/Persona [1-4]/)` is truthy exactly when the text
contains `Persona d` (d between 1 and 4) anywhere: an unanchored search. -/
def personaRegexTest : List Char → Bool
  | [] => false
  | c :: rest => personaTokenHead (c :: rest) || personaRegexTest rest

/-- Outcome of the `anthropic.messages.create` call in `classifyLead`: the
response text `message.content[0].text`, or a thrown transport/service
error.  A malformed response shape (`content[0]` absent) throws inside the
same `try` block, so it folds into the thrown case. -/
inductive ClassifierOutcome
  | response (text : String)
  | thrown
deriving DecidableEq, Repr

/-- `classifyLead(lead)`: trim the response text; if it fails the
`/Persona [1-4]/` test, or the call threw, return `'Persona 4'`; otherwise
return the trimmed response text itself. -/
def classifyLead (outcome : ClassifierOutcome) : String :=
  match outcome with
  | .thrown => "Persona 4"
  | .response text =>
    let classification := jsTrim text
    if personaRegexTest classification.data then classification
    else "Persona 4"

/-- The closed four-token category enumeration. -/
def personaEnum : List String :=
  ["Persona 1", "Persona 2", "Persona 3", "Persona 4"]

/-- The `{ lead, persona }` pair built by `classifyLeads`. -/
structure ClassifiedRecord where
  lead : InputRecord
  persona : String
deriving DecidableEq, Repr

/-- `const CONCURRENCY = 5`: the bound used for classification and for the
webhook fan-out. -/
def CONCURRENCY : Nat := 5

/-- `classifyLeads(leads)`: classify every new lead under the concurrency
limiter, pairing each lead with its persona.  `svc` gives the
classification-service outcome for each lead. -/
def classifyLeads (svc : InputRecord → ClassifierOutcome)
    (leads : List InputRecord) : List ClassifiedRecord :=
  runWithConcurrency leads CONCURRENCY
    (fun lead => ⟨lead, classifyLead (svc lead)⟩)

/-- The row shape handed to the bulk insert in `addLeadsToDatabase`
(`created_at` is assigned by the server, not by this program). -/
structure StoredRow where
  first_name : String
  last_name : String
  job_title : String
  company : String
  email : String
  phone : String
  persona : String
  lead_status : String
deriving DecidableEq, Repr

/-- The per-record mapping in `addLeadsToDatabase`'s `rows` construction. -/
def toRow (c : ClassifiedRecord) : StoredRow :=
  { first_name := c.lead.firstName
    last_name := c.lead.lastName
    job_title := c.lead.jobTitle
    company := c.lead.company
    email := c.lead.email
    phone := c.lead.phone
    persona := c.persona
    lead_status := "Not Contacted" }

/-- Outcome of the single bulk insert
`supabase.from('leads').insert(rows)`: success, a result with `error` set,
or a thrown exception. -/
inductive InsertOutcome
  | ok
  | errorResult
  | thrown
deriving DecidableEq, Repr

/-- `addLeadsToDatabase(classifiedLeads)`: map every classified lead to a
row, issue one bulk insert; on success return
`{ success: true, count: rows.length }`, on an error result or a thrown
exception return `{ success: false, count: 0 }`. -/
def addLeadsToDatabase (classifiedLeads : List ClassifiedRecord)
    (o : InsertOutcome) : Bool × Nat :=
  let rows := classifiedLeads.map toRow
  match o with
  | .ok => (true, rows.length)
  | .errorResult => (false, 0)
  | .thrown => (false, 0)

/-- Outcome of one `axios.post(WEBHOOK_URL, payload)` call: a response with
its status code, or a thrown transport error. -/
inductive WebhookOutcome
  | status (code : Nat)
  | thrown
deriving DecidableEq, Repr

/-- The per-delivery success test in `sendLeadsToWebhook`: a response with
status 200 or 201 counts as success, any other status or a thrown transport
error counts as failure. -/
def deliveryOk (o : WebhookOutcome) : Bool :=
  match o with
  | .status code => code == 200 || code == 201
  | .thrown => false

/-- `sendLeadsToWebhook(classifiedLeads)`: deliver every classified lead
under the concurrency limiter; `successCount` counts deliveries whose
response status was 200 or 201, `failCount` counts all others (non-success
status or thrown transport error).  The JS increments the two shared
counters in completion order; their final values are completion-order
independent, so the tally of the per-item outcomes models them exactly. -/
def sendLeadsToWebhook (classifiedLeads : List ClassifiedRecord)
    (wh : ClassifiedRecord → WebhookOutcome) (k : Nat) : Nat × Nat :=
  let attempts := runWithConcurrency classifiedLeads k
    (fun c => deliveryOk (wh c))
  (attempts.countP (fun b => b), attempts.countP (fun b => !b))

/-- The emails logged (`console.warn` / `console.error`, each carrying
`lead['Email']`) for failed deliveries in `sendLeadsToWebhook`, in input
order. -/
def webhookFailLog (classifiedLeads : List ClassifiedRecord)
    (wh : ClassifiedRecord → WebhookOutcome) : List String :=
  (classifiedLeads.filter (fun c => !(deliveryOk (wh c)))).map
    (fun c => c.lead.email)

/-- The outcomes of every external call a run can make. -/
structure Env where
  dedupResp : StoreResponse
  classifierResp : InputRecord → ClassifierOutcome
  insertOutcome : InsertOutcome
  webhookResp : ClassifiedRecord → WebhookOutcome

/-- External requests issued by a run, in the order the awaited stages
complete.  Classification calls inside one chunk start concurrently; the
trace lists them in input order, which is sound for the stage-ordering
claims because every classification call both starts and settles before
`classifyLeads` returns, hence before the insert is issued. -/
inductive Event
  | dedupQuery (emails : List String)
  | classifyCall (r : InputRecord)
  | insertCall (rows : List StoredRow)
  | webhookCall (c : ClassifiedRecord)
deriving DecidableEq, Repr

def isDedupEvent : Event → Bool
  | .dedupQuery _ => true
  | _ => false

def isClassifyEvent : Event → Bool
  | .classifyCall _ => true
  | _ => false

def isInsertEvent : Event → Bool
  | .insertCall _ => true
  | _ => false

def isWebhookEvent : Event → Bool
  | .webhookCall _ => true
  | _ => false

/-- What one run of `main`'s pipeline produces: the summary counters it
prints and the trace of external requests it issued.  When the batch is
empty after dedup, `main` returns early without printing the numeric
summary block (`summaryShown = false`); the counters then record what the
run did: nothing classified, persisted or delivered. -/
structure PipelineResult where
  summaryShown : Bool
  processed : Nat
  skipped : Nat
  failedDb : Nat
  webhookSuccessCount : Nat
  webhookFailCount : Nat
  persona1Count : Nat
  persona2Count : Nat
  persona3Count : Nat
  persona4Count : Nat
  trace : List Event

/-- The pipeline portion of `main` (after `readCSV` succeeds): dedup, then
if any leads remain, classification under the limiter, one bulk insert,
webhook fan-out, and the summary counters (`dbResult.count` as processed,
`duplicateCount` as skipped, `newLeads.length` as failed inserts when the
bulk insert failed, and the `byPersona` tally). -/
def runPipeline (env : Env) (leads : List InputRecord) : PipelineResult :=
  let queriedEmails := leads.map (fun l => l.email)
  let fd := filterDuplicates leads env.dedupResp
  if fd.newLeads.length = 0 then
    { summaryShown := false
      processed := 0
      skipped := fd.duplicateCount
      failedDb := 0
      webhookSuccessCount := 0
      webhookFailCount := 0
      persona1Count := 0
      persona2Count := 0
      persona3Count := 0
      persona4Count := 0
      trace := [.dedupQuery queriedEmails] }
  else
    let classifiedLeads := classifyLeads env.classifierResp fd.newLeads
    let dbResult := addLeadsToDatabase classifiedLeads env.insertOutcome
    let whResult := sendLeadsToWebhook classifiedLeads env.webhookResp CONCURRENCY
    { summaryShown := true
      processed := dbResult.2
      skipped := fd.duplicateCount
      failedDb := if dbResult.1 then 0 else fd.newLeads.length
      webhookSuccessCount := whResult.1
      webhookFailCount := whResult.2
      persona1Count := classifiedLeads.countP (fun c => c.persona == "Persona 1")
      persona2Count := classifiedLeads.countP (fun c => c.persona == "Persona 2")
      persona3Count := classifiedLeads.countP (fun c => c.persona == "Persona 3")
      persona4Count := classifiedLeads.countP (fun c => c.persona == "Persona 4")
      trace := .dedupQuery queriedEmails
        :: (fd.newLeads.map Event.classifyCall)
        ++ Event.insertCall (classifiedLeads.map toRow)
        :: (classifiedLeads.map Event.webhookCall) }

/-- The batch left after deduplication in a run. -/
def newLeadsOf (env : Env) (leads : List InputRecord) : List InputRecord :=
  (filterDuplicates leads env.dedupResp).newLeads

/-- The classified set produced in a run. -/
def classifiedOf (env : Env) (leads : List InputRecord) :
    List ClassifiedRecord :=
  classifyLeads env.classifierResp (newLeadsOf env leads)

theorem runWithConcurrency_nil (k : Nat) (f : α → β) :
    runWithConcurrency [] k f = [] := by
  rw [runWithConcurrency]

theorem chunks_nil (k : Nat) : chunks k ([] : List α) = [] := by
  rw [chunks]

theorem runWithConcurrency_eq_map_le (k : Nat) (f : α → β) (hk : k ≠ 0) :
    ∀ (n : Nat) (items : List α), items.length ≤ n →
      runWithConcurrency items k f = items.map f := by
  intro n
  induction n with
  | zero =>
    intro items h
    have : items = [] := List.eq_nil_of_length_eq_zero (Nat.le_zero.mp h)
    subst this
    simp [runWithConcurrency_nil]
  | succ n ih =>
    intro items h
    match items with
    | [] => simp [runWithConcurrency_nil]
    | x :: xs =>
      rw [runWithConcurrency]
      simp only [hk, dite_false]
      have hlen : ((x :: xs).drop k).length ≤ n := by
        have h2 : 0 < k := Nat.pos_of_ne_zero hk
        simp only [List.length_drop, List.length_cons]
        simp only [List.length_cons] at h
        omega
      rw [ih ((x :: xs).drop k) hlen, ← List.map_append, List.take_append_drop]

/-- With a bound `k ≥ 1`, the limiter is extensionally the plain map. -/
theorem runWithConcurrency_eq_map (items : List α) (k : Nat) (f : α → β)
    (hk : k ≠ 0) : runWithConcurrency items k f = items.map f :=
  runWithConcurrency_eq_map_le k f hk items.length items (Nat.le_refl _)

theorem chunks_flatten_le (k : Nat) (hk : k ≠ 0) :
    ∀ (n : Nat) (items : List α), items.length ≤ n →
      (chunks k items).flatten = items := by
  intro n
  induction n with
  | zero =>
    intro items h
    have : items = [] := List.eq_nil_of_length_eq_zero (Nat.le_zero.mp h)
    subst this
    simp [chunks_nil]
  | succ n ih =>
    intro items h
    match items with
    | [] => simp [chunks_nil]
    | x :: xs =>
      rw [chunks]
      simp only [hk, dite_false]
      have hlen : ((x :: xs).drop k).length ≤ n := by
        have h2 : 0 < k := Nat.pos_of_ne_zero hk
        simp only [List.length_drop, List.length_cons]
        simp only [List.length_cons] at h
        omega
      simp only [List.flatten_cons, ih ((x :: xs).drop k) hlen,
        List.take_append_drop]

/-- The chunks flatten back to the input: every item is scheduled exactly
once, none skipped, none duplicated. -/
theorem chunks_flatten (k : Nat) (items : List α) (hk : k ≠ 0) :
    (chunks k items).flatten = items :=
  chunks_flatten_le k hk items.length items (Nat.le_refl _)

theorem chunks_length_le_aux (k : Nat) (hk : k ≠ 0) :
    ∀ (n : Nat) (items : List α), items.length ≤ n →
      ∀ c ∈ chunks k items, c.length ≤ k := by
  intro n
  induction n with
  | zero =>
    intro items h
    have : items = [] := List.eq_nil_of_length_eq_zero (Nat.le_zero.mp h)
    subst this
    simp [chunks_nil]
  | succ n ih =>
    intro items h c hmem
    match items with
    | [] => rw [chunks_nil] at hmem; simp at hmem
    | x :: xs =>
      rw [chunks] at hmem
      simp only [hk, dite_false, List.mem_cons] at hmem
      rcases hmem with hmem | hmem
      · subst hmem
        simp only [List.length_take]
        exact Nat.min_le_left _ _
      · have hlen : ((x :: xs).drop k).length ≤ n := by
          have h2 : 0 < k := Nat.pos_of_ne_zero hk
          simp only [List.length_drop, List.length_cons]
          simp only [List.length_cons] at h
          omega
        exact ih ((x :: xs).drop k) hlen c hmem

/-- Every awaited batch has at most `k` operations: at most `k` in flight. -/
theorem chunks_length_le (k : Nat) (items : List α) (hk : k ≠ 0) :
    ∀ c ∈ chunks k items, c.length ≤ k :=
  chunks_length_le_aux k hk items.length items (Nat.le_refl _)

theorem runWithConcurrency_eq_flatten_le (k : Nat) (f : α → β) (hk : k ≠ 0) :
    ∀ (n : Nat) (items : List α), items.length ≤ n →
      runWithConcurrency items k f
        = ((chunks k items).map (List.map f)).flatten := by
  intro n
  induction n with
  | zero =>
    intro items h
    have : items = [] := List.eq_nil_of_length_eq_zero (Nat.le_zero.mp h)
    subst this
    simp [chunks_nil, runWithConcurrency_nil]
  | succ n ih =>
    intro items h
    match items with
    | [] => simp [chunks_nil, runWithConcurrency_nil]
    | x :: xs =>
      rw [runWithConcurrency, chunks]
      simp only [hk, dite_false]
      have hlen : ((x :: xs).drop k).length ≤ n := by
        have h2 : 0 < k := Nat.pos_of_ne_zero hk
        simp only [List.length_drop, List.length_cons]
        simp only [List.length_cons] at h
        omega
      simp only [List.map_cons, List.flatten_cons, ih ((x :: xs).drop k) hlen]

/-- The limiter's result is the chunk-by-chunk map, flattened in order. -/
theorem runWithConcurrency_eq_flatten (items : List α) (k : Nat) (f : α → β)
    (hk : k ≠ 0) :
    runWithConcurrency items k f = ((chunks k items).map (List.map f)).flatten :=
  runWithConcurrency_eq_flatten_le k f hk items.length items (Nat.le_refl _)

theorem dedup_foldl (emails : List String) :
    ∀ (leads : List InputRecord) (ns : List InputRecord) (d : Nat),
      leads.foldl (dedupStep emails) (ns, d)
        = (ns ++ leads.filter (fun l => !(emails.contains l.email)),
           d + leads.countP (fun l => emails.contains l.email)) := by
  intro leads
  induction leads with
  | nil => intro ns d; simp
  | cons l ls ih =>
    intro ns d
    cases hmem : emails.contains l.email with
    | true =>
      have hmem' : l.email ∈ emails := by simpa using hmem
      have h1 : (l :: ls).filter (fun x => !(emails.contains x.email))
          = ls.filter (fun x => !(emails.contains x.email)) := by
        simp [List.filter_cons, hmem']
      have h2 : (l :: ls).countP (fun x => emails.contains x.email)
          = ls.countP (fun x => emails.contains x.email) + 1 := by
        simp [List.countP_cons, hmem']
      rw [List.foldl_cons]
      simp only [dedupStep]
      rw [if_pos hmem, ih, h1, h2]
      simp only [Prod.mk.injEq]
      exact ⟨by simp, by omega⟩
    | false =>
      have hmem' : l.email ∉ emails := by simpa using hmem
      have h1 : (l :: ls).filter (fun x => !(emails.contains x.email))
          = l :: ls.filter (fun x => !(emails.contains x.email)) := by
        simp [List.filter_cons, hmem']
      have h2 : (l :: ls).countP (fun x => emails.contains x.email)
          = ls.countP (fun x => emails.contains x.email) := by
        simp [List.countP_cons, hmem']
      rw [List.foldl_cons]
      simp only [dedupStep]
      rw [if_neg (by simp [hmem']), ih, h1, h2]
      simp [List.append_assoc]

/-- On a successful existence query, `filterDuplicates` is the order-
preserving filter against the returned email set, and counts the rest. -/
theorem filterDuplicates_ok (leads : List InputRecord) (emails : List String) :
    filterDuplicates leads (.ok emails)
      = ⟨leads.filter (fun l => !(emails.contains l.email)),
         leads.countP (fun l => emails.contains l.email)⟩ := by
  simp [filterDuplicates, dedup_foldl]

theorem countP_add_filter_not_length (p : α → Bool) (l : List α) :
    l.countP p + (l.filter (fun a => !(p a))).length = l.length := by
  induction l with
  | nil => simp
  | cons a l ih =>
    by_cases h : p a <;>
      simp [List.countP_cons, List.filter_cons, h] <;> omega

theorem countP_add_countP_not (p : α → Bool) (l : List α) :
    l.countP p + l.countP (fun a => !(p a)) = l.length := by
  induction l with
  | nil => simp
  | cons a l ih =>
    by_cases h : p a <;> simp [List.countP_cons, h] <;> omega

theorem runPipeline_empty_eq (env : Env) (leads : List InputRecord)
    (h : (newLeadsOf env leads).length = 0) :
    runPipeline env leads =
      { summaryShown := false
        processed := 0
        skipped := (filterDuplicates leads env.dedupResp).duplicateCount
        failedDb := 0
        webhookSuccessCount := 0
        webhookFailCount := 0
        persona1Count := 0
        persona2Count := 0
        persona3Count := 0
        persona4Count := 0
        trace := [.dedupQuery (leads.map (fun l => l.email))] } := by
  rw [newLeadsOf] at h
  simp only [runPipeline]
  rw [if_pos h]

theorem runPipeline_run_eq (env : Env) (leads : List InputRecord)
    (h : (newLeadsOf env leads).length ≠ 0) :
    runPipeline env leads =
      { summaryShown := true
        processed :=
          (addLeadsToDatabase (classifiedOf env leads) env.insertOutcome).2
        skipped := (filterDuplicates leads env.dedupResp).duplicateCount
        failedDb :=
          if (addLeadsToDatabase (classifiedOf env leads) env.insertOutcome).1
          then 0 else (newLeadsOf env leads).length
        webhookSuccessCount :=
          (sendLeadsToWebhook (classifiedOf env leads) env.webhookResp
            CONCURRENCY).1
        webhookFailCount :=
          (sendLeadsToWebhook (classifiedOf env leads) env.webhookResp
            CONCURRENCY).2
        persona1Count :=
          (classifiedOf env leads).countP (fun c => c.persona == "Persona 1")
        persona2Count :=
          (classifiedOf env leads).countP (fun c => c.persona == "Persona 2")
        persona3Count :=
          (classifiedOf env leads).countP (fun c => c.persona == "Persona 3")
        persona4Count :=
          (classifiedOf env leads).countP (fun c => c.persona == "Persona 4")
        trace := .dedupQuery (leads.map (fun l => l.email))
          :: ((newLeadsOf env leads).map Event.classifyCall)
          ++ Event.insertCall ((classifiedOf env leads).map toRow)
          :: ((classifiedOf env leads).map Event.webhookCall) } := by
  rw [newLeadsOf] at h
  simp only [runPipeline, classifiedOf, newLeadsOf]
  rw [if_neg h]

theorem filter_isInsertEvent_classify (rs : List InputRecord) :
    (rs.map Event.classifyCall).filter isInsertEvent = [] := by
  induction rs with
  | nil => rfl
  | cons r rs ih => simpa [List.filter_cons, isInsertEvent] using ih

theorem filter_isInsertEvent_webhook (cs : List ClassifiedRecord) :
    (cs.map Event.webhookCall).filter isInsertEvent = [] := by
  induction cs with
  | nil => rfl
  | cons c cs ih => simpa [List.filter_cons, isInsertEvent] using ih

/-- In any run that proceeds past dedup, the trace holds exactly one bulk
insert request, and it carries the rows for the entire classified set. -/
theorem trace_insert_events (env : Env) (leads : List InputRecord)
    (h : (newLeadsOf env leads).length ≠ 0) :
    (runPipeline env leads).trace.filter isInsertEvent
      = [Event.insertCall ((classifiedOf env leads).map toRow)] := by
  rw [runPipeline_run_eq env leads h]
  simp only [List.filter_cons, List.filter_append]
  rw [filter_isInsertEvent_classify, filter_isInsertEvent_webhook]
  simp [isInsertEvent]

theorem classifiedOf_eq_map (env : Env) (leads : List InputRecord) :
    classifiedOf env leads
      = (newLeadsOf env leads).map
          (fun lead => ⟨lead, classifyLead (env.classifierResp lead)⟩) := by
  simp only [classifiedOf, classifyLeads]
  exact runWithConcurrency_eq_map _ _ _ (by decide)

theorem sendLeadsToWebhook_eq (classifiedLeads : List ClassifiedRecord)
    (wh : ClassifiedRecord → WebhookOutcome) (k : Nat) (hk : k ≠ 0) :
    sendLeadsToWebhook classifiedLeads wh k
      = (classifiedLeads.countP (fun c => deliveryOk (wh c)),
         classifiedLeads.countP (fun c => !(deliveryOk (wh c)))) := by
  simp only [sendLeadsToWebhook]
  rw [runWithConcurrency_eq_map _ _ _ hk]
  rw [List.countP_map, List.countP_map]
  rfl

theorem countP_email_filter_of_not_existing (emails : List String)
    (e : String) (he : emails.contains e = false) (l : List InputRecord) :
    (l.filter (fun x => !(emails.contains x.email))).countP
        (fun x => x.email == e)
      = l.countP (fun x => x.email == e) := by
  induction l with
  | nil => rfl
  | cons x xs ih =>
    cases hkeep : emails.contains x.email with
    | true =>
      have hb : (x.email == e) = false := by
        cases hbe : (x.email == e) with
        | false => rfl
        | true =>
          have hxe : x.email = e := by simpa using hbe
          rw [hxe, he] at hkeep
          exact absurd hkeep (by decide)
      rw [List.filter_cons, if_neg (by simpa using hkeep), List.countP_cons, ih, hb]
      simp
    | false =>
      rw [List.filter_cons, if_pos (by simpa using hkeep), List.countP_cons,
        List.countP_cons, ih]

/-- C1: for every ordered sequence of items, every bound k ≥ 1 and every
per-item operation, the limiter returns exactly one result per input, the
i-th result being the operation's result on the i-th input (order
preserved, nothing skipped or duplicated), and it processes the input in
consecutive chunks — the awaited batches — each of size at most k, so at
most k operations are in flight at any instant. -/
theorem runWithConcurrency_contract (items : List α) (k : Nat) (f : α → β)
    (hk : 1 ≤ k) :
    (runWithConcurrency items k f).length = items.length ∧
    (∀ i : Nat, (runWithConcurrency items k f)[i]? = (items[i]?).map f) ∧
    runWithConcurrency items k f = ((chunks k items).map (List.map f)).flatten ∧
    (chunks k items).flatten = items ∧
    (∀ c ∈ chunks k items, c.length ≤ k) := by
  have hk0 : k ≠ 0 := by omega
  have hmap := runWithConcurrency_eq_map items k f hk0
  refine ⟨?_, ?_, runWithConcurrency_eq_flatten items k f hk0,
    chunks_flatten k items hk0, chunks_length_le k items hk0⟩
  · rw [hmap, List.length_map]
  · intro i
    rw [hmap, List.getElem?_map]

theorem runWithConcurrency_contract_witness :
    1 ≤ 2 ∧
    ((runWithConcurrency [10, 20, 30] 2 (fun n => n + 1)).length
        = [10, 20, 30].length ∧
      (∀ i : Nat, (runWithConcurrency [10, 20, 30] 2 (fun n => n + 1))[i]?
          = (([10, 20, 30] : List Nat)[i]?).map (fun n => n + 1)) ∧
      runWithConcurrency [10, 20, 30] 2 (fun n => n + 1)
        = ((chunks 2 [10, 20, 30]).map (List.map (fun n => n + 1))).flatten ∧
      (chunks 2 [10, 20, 30]).flatten = [10, 20, 30] ∧
      (∀ c ∈ chunks 2 [10, 20, 30], c.length ≤ 2)) :=
  ⟨by decide, runWithConcurrency_contract [10, 20, 30] 2 (fun n => n + 1)
    (by decide)⟩

/-- C2: for every input batch and every existence-query outcome,
`filterDuplicates` returns an order-preserving subsequence of the input
together with a duplicate count satisfying
`duplicateCount + |newLeads| = |input|`; when the bulk query succeeds, a
record is kept exactly when its email is not among the returned existing
emails. -/
theorem filterDuplicates_contract (leads : List InputRecord)
    (resp : StoreResponse) :
    (filterDuplicates leads resp).duplicateCount
        + (filterDuplicates leads resp).newLeads.length = leads.length ∧
    List.Sublist (filterDuplicates leads resp).newLeads leads ∧
    (∀ emails : List String, resp = .ok emails →
      (filterDuplicates leads resp).newLeads
        = leads.filter (fun l => !(emails.contains l.email))) := by
  refine ⟨?_, ?_, ?_⟩
  · cases resp with
    | ok emails =>
      rw [filterDuplicates_ok]
      exact countP_add_filter_not_length _ _
    | errorResult => simp [filterDuplicates]
    | thrown => simp [filterDuplicates]
  · cases resp with
    | ok emails =>
      rw [filterDuplicates_ok]
      exact List.filter_sublist _
    | errorResult => exact List.Sublist.refl _
    | thrown => exact List.Sublist.refl _
  · intro emails h
    subst h
    rw [filterDuplicates_ok]

theorem filterDuplicates_contract_witness :
    (filterDuplicates
        [⟨"A", "B", "Owner", "X", "a@x", "1"⟩,
         ⟨"C", "D", "HR", "Y", "c@y", "2"⟩]
        (.ok ["c@y"])).newLeads
      = ([⟨"A", "B", "Owner", "X", "a@x", "1"⟩,
          ⟨"C", "D", "HR", "Y", "c@y", "2"⟩] : List InputRecord).filter
          (fun l => !((["c@y"] : List String).contains l.email)) :=
  (filterDuplicates_contract
    [⟨"A", "B", "Owner", "X", "a@x", "1"⟩, ⟨"C", "D", "HR", "Y", "c@y", "2"⟩]
    (.ok ["c@y"])).2.2 ["c@y"] rfl

/-- C3: the claim that `classifyLead` always returns one of the four
enumeration tokens fails on the code: the validation
`classification.match(/Persona [1-4]/)` is an unanchored substring test, so
any response text merely containing a persona token passes validation and
is returned verbatim.  On the response text `Persona 1 (Owner)` the
function returns that whole string, which is not one of the four tokens
(and in `main` such a value corrupts the `byPersona[persona]++` tally, so
the closed enumeration was clearly the intent).  The thrown and
unrecognized cases do fall back to `Persona 4` as claimed. -/
theorem classifyLead_substring_leak :
    classifyLead (.response "Persona 1 (Owner)") = "Persona 1 (Owner)" ∧
    personaEnum.contains (classifyLead (.response "Persona 1 (Owner)")) = false ∧
    classifyLead .thrown = "Persona 4" ∧
    classifyLead (.response "banana") = "Persona 4" ∧
    classifyLead (.response "  Persona 2  ") = "Persona 2" ∧
    personaEnum.contains "Persona 4" = true := by
  refine ⟨?_, ?_, ?_, ?_, ?_, ?_⟩ <;> decide

/-- C4: `addLeadsToDatabase` returns `(true, N)` when the single bulk
insert succeeds and `(false, 0)` on any failure — never a partial count;
the run's trace holds exactly one bulk insert request covering the whole
classified set, and when the insert fails the summary still reports zero
persisted records while the per-category tallies are the same as in a run
whose insert succeeds. -/
theorem addLeadsToDatabase_all_or_nothing
    (classifiedLeads : List ClassifiedRecord) (o : InsertOutcome) :
    (o = .ok →
      addLeadsToDatabase classifiedLeads o = (true, classifiedLeads.length)) ∧
    (o ≠ .ok → addLeadsToDatabase classifiedLeads o = (false, 0)) ∧
    (∀ (env : Env) (leads : List InputRecord),
      ((newLeadsOf env leads).length ≠ 0 →
        (runPipeline env leads).trace.filter isInsertEvent
          = [Event.insertCall ((classifiedOf env leads).map toRow)]) ∧
      (env.insertOutcome ≠ .ok →
        (runPipeline env leads).processed = 0 ∧
        (runPipeline env leads).persona1Count
          = (runPipeline { env with insertOutcome := .ok } leads).persona1Count ∧
        (runPipeline env leads).persona2Count
          = (runPipeline { env with insertOutcome := .ok } leads).persona2Count ∧
        (runPipeline env leads).persona3Count
          = (runPipeline { env with insertOutcome := .ok } leads).persona3Count ∧
        (runPipeline env leads).persona4Count
          = (runPipeline { env with insertOutcome := .ok } leads).persona4Count)) := by
  refine ⟨?_, ?_, ?_⟩
  · intro h
    subst h
    simp [addLeadsToDatabase, List.length_map]
  · intro h
    cases o with
    | ok => exact absurd rfl h
    | errorResult => rfl
    | thrown => rfl
  · intro env leads
    constructor
    · intro h
      exact trace_insert_events env leads h
    · intro hne
      by_cases h0 : (newLeadsOf env leads).length = 0
      · rw [runPipeline_empty_eq env leads h0,
          runPipeline_empty_eq { env with insertOutcome := .ok } leads h0]
        exact ⟨rfl, rfl, rfl, rfl, rfl⟩
      · rw [runPipeline_run_eq env leads h0,
          runPipeline_run_eq { env with insertOutcome := .ok } leads h0]
        refine ⟨?_, rfl, rfl, rfl, rfl⟩
        cases ho : env.insertOutcome with
        | ok => exact absurd ho hne
        | errorResult => simp [addLeadsToDatabase, ho]
        | thrown => simp [addLeadsToDatabase, ho]

theorem addLeadsToDatabase_all_or_nothing_witness :
    (InsertOutcome.thrown ≠ InsertOutcome.ok) ∧
    addLeadsToDatabase
        [⟨⟨"A", "B", "Owner", "X", "a@x", "1"⟩, "Persona 1"⟩]
        .thrown = (false, 0) :=
  ⟨by decide,
    (addLeadsToDatabase_all_or_nothing
      [⟨⟨"A", "B", "Owner", "X", "a@x", "1"⟩, "Persona 1"⟩] .thrown).2.1
      (by decide)⟩

/-- C5: if the bulk existence query fails — an error result or a thrown
exception — `filterDuplicates` fails open: the whole batch is returned as
new and the duplicate count is zero. -/
theorem filterDuplicates_fail_open (leads : List InputRecord) :
    filterDuplicates leads .errorResult = ⟨leads, 0⟩ ∧
    filterDuplicates leads .thrown = ⟨leads, 0⟩ :=
  ⟨rfl, rfl⟩

/-- C6: a failing operation (one that settles with its caught-error
sentinel, per the limiter's contract) does not abort its chunk siblings or
later chunks: even when the j-th operation fails, every item still gets
exactly its own result, none is dropped, and each item is scheduled exactly
once (no retry). -/
theorem runWithConcurrency_no_short_circuit {ε : Type} {β : Type}
    (items : List α) (k : Nat) (f : α → Except ε β) (hk : 1 ≤ k) (j : Nat)
    (hj : j < items.length) (e : ε)
    (hfail : f (items.get ⟨j, hj⟩) = .error e) :
    (runWithConcurrency items k f).length = items.length ∧
    (∀ i : Nat, (runWithConcurrency items k f)[i]? = (items[i]?).map f) ∧
    (chunks k items).flatten = items := by
  have hk0 : k ≠ 0 := by omega
  have hmap := runWithConcurrency_eq_map items k f hk0
  refine ⟨?_, ?_, chunks_flatten k items hk0⟩
  · rw [hmap, List.length_map]
  · intro i
    rw [hmap, List.getElem?_map]

theorem runWithConcurrency_no_short_circuit_witness :
    1 ≤ 2 ∧ 1 < ([1, 2, 3] : List Nat).length ∧
    ((fun n => if n == 2 then Except.error "boom" else Except.ok n) 2
        = Except.error "boom") ∧
    ((runWithConcurrency [1, 2, 3] 2
        (fun n => if n == 2 then Except.error "boom" else Except.ok n)).length
      = ([1, 2, 3] : List Nat).length ∧
    (∀ i : Nat, (runWithConcurrency [1, 2, 3] 2
        (fun n => if n == 2 then Except.error "boom" else Except.ok n))[i]?
      = (([1, 2, 3] : List Nat)[i]?).map
          (fun n => if n == 2 then Except.error "boom" else Except.ok n)) ∧
    (chunks 2 [1, 2, 3]).flatten = [1, 2, 3]) :=
  ⟨by decide, by decide, rfl,
    runWithConcurrency_no_short_circuit [1, 2, 3] 2
      (fun n => if n == 2 then Except.error "boom" else Except.ok n)
      (by decide) 1 (by decide) "boom" rfl⟩

/-- C7: in a run that proceeds past dedup, the trace is exactly the dedup
query, then all classification calls, then the single bulk insert, then one
webhook call per classified record: classification fully completes before
the insert is issued, the insert comes before any delivery, and delivery is
attempted for every classified record; the trace — and hence the delivery
attempts — is identical for every bulk-insert outcome, so delivery does not
depend on persistence's success. -/
theorem runPipeline_stage_order (env : Env) (leads : List InputRecord)
    (h : (newLeadsOf env leads).length ≠ 0) :
    (runPipeline env leads).trace
      = Event.dedupQuery (leads.map (fun l => l.email))
          :: ((newLeadsOf env leads).map Event.classifyCall)
          ++ Event.insertCall ((classifiedOf env leads).map toRow)
          :: ((classifiedOf env leads).map Event.webhookCall) ∧
    (classifiedOf env leads).length = (newLeadsOf env leads).length ∧
    (∀ o : InsertOutcome,
      (runPipeline { env with insertOutcome := o } leads).trace
        = (runPipeline env leads).trace) := by
  refine ⟨?_, ?_, ?_⟩
  · rw [runPipeline_run_eq env leads h]
  · rw [classifiedOf_eq_map, List.length_map]
  · intro o
    rw [runPipeline_run_eq env leads h,
      runPipeline_run_eq { env with insertOutcome := o } leads h]
    rfl

theorem runPipeline_stage_order_witness :
    ((newLeadsOf
        ⟨.ok ["z@z"], fun _ => .response "Persona 1", .errorResult,
          fun _ => .status 200⟩
        [⟨"A", "B", "Owner", "X", "a@x", "1"⟩]).length ≠ 0) ∧
    ((runPipeline
        ⟨.ok ["z@z"], fun _ => .response "Persona 1", .errorResult,
          fun _ => .status 200⟩
        [⟨"A", "B", "Owner", "X", "a@x", "1"⟩]).trace
      = Event.dedupQuery
            (([⟨"A", "B", "Owner", "X", "a@x", "1"⟩] :
              List InputRecord).map (fun l => l.email))
          :: ((newLeadsOf
                ⟨.ok ["z@z"], fun _ => .response "Persona 1", .errorResult,
                  fun _ => .status 200⟩
                [⟨"A", "B", "Owner", "X", "a@x", "1"⟩]).map
                Event.classifyCall)
          ++ Event.insertCall
              ((classifiedOf
                  ⟨.ok ["z@z"], fun _ => .response "Persona 1", .errorResult,
                    fun _ => .status 200⟩
                  [⟨"A", "B", "Owner", "X", "a@x", "1"⟩]).map toRow)
          :: ((classifiedOf
                ⟨.ok ["z@z"], fun _ => .response "Persona 1", .errorResult,
                  fun _ => .status 200⟩
                [⟨"A", "B", "Owner", "X", "a@x", "1"⟩]).map
                Event.webhookCall) ∧
      (classifiedOf
          ⟨.ok ["z@z"], fun _ => .response "Persona 1", .errorResult,
            fun _ => .status 200⟩
          [⟨"A", "B", "Owner", "X", "a@x", "1"⟩]).length
        = (newLeadsOf
            ⟨.ok ["z@z"], fun _ => .response "Persona 1", .errorResult,
              fun _ => .status 200⟩
            [⟨"A", "B", "Owner", "X", "a@x", "1"⟩]).length ∧
      (∀ o : InsertOutcome,
        (runPipeline
            { (⟨.ok ["z@z"], fun _ => .response "Persona 1", .errorResult,
                fun _ => .status 200⟩ : Env) with insertOutcome := o }
            [⟨"A", "B", "Owner", "X", "a@x", "1"⟩]).trace
          = (runPipeline
              ⟨.ok ["z@z"], fun _ => .response "Persona 1", .errorResult,
                fun _ => .status 200⟩
              [⟨"A", "B", "Owner", "X", "a@x", "1"⟩]).trace)) :=
  ⟨by decide,
    runPipeline_stage_order
      ⟨.ok ["z@z"], fun _ => .response "Persona 1", .errorResult,
        fun _ => .status 200⟩
      [⟨"A", "B", "Owner", "X", "a@x", "1"⟩] (by decide)⟩

/-- C8: a delivery counts as a success exactly when the webhook response
status is 200 or 201; every other status and every thrown transport error
counts as a failure; success and failure counts partition the delivered
set (`successCount + failCount = N`); each failed delivery's email is
logged; and the persisted count is unaffected by webhook outcomes. -/
theorem sendLeadsToWebhook_contract (classifiedLeads : List ClassifiedRecord)
    (wh : ClassifiedRecord → WebhookOutcome) (k : Nat) (hk : 1 ≤ k) :
    (sendLeadsToWebhook classifiedLeads wh k).1
        = classifiedLeads.countP (fun c => deliveryOk (wh c)) ∧
    (sendLeadsToWebhook classifiedLeads wh k).2
        = classifiedLeads.countP (fun c => !(deliveryOk (wh c))) ∧
    (sendLeadsToWebhook classifiedLeads wh k).1
        + (sendLeadsToWebhook classifiedLeads wh k).2
      = classifiedLeads.length ∧
    (∀ c : ClassifiedRecord, deliveryOk (wh c) = true
        ↔ (wh c = .status 200 ∨ wh c = .status 201)) ∧
    (webhookFailLog classifiedLeads wh).length
        = (sendLeadsToWebhook classifiedLeads wh k).2 ∧
    (∀ c ∈ classifiedLeads, deliveryOk (wh c) = false →
        c.lead.email ∈ webhookFailLog classifiedLeads wh) ∧
    (∀ (env : Env) (leads : List InputRecord),
      (runPipeline { env with webhookResp := wh } leads).processed
        = (runPipeline env leads).processed) := by
  have hk0 : k ≠ 0 := by omega
  rw [sendLeadsToWebhook_eq classifiedLeads wh k hk0]
  refine ⟨rfl, rfl, countP_add_countP_not _ _, ?_, ?_, ?_, ?_⟩
  · intro c
    cases hc : wh c with
    | status code => simp [deliveryOk]
    | thrown => simp [deliveryOk]
  · rw [webhookFailLog, List.length_map, ← List.countP_eq_length_filter]
  · intro c hc hfail
    rw [webhookFailLog]
    exact List.mem_map.mpr
      ⟨c, List.mem_filter.mpr ⟨hc, by simp [hfail]⟩, rfl⟩
  · intro env leads
    by_cases h0 : (newLeadsOf env leads).length = 0
    · rw [runPipeline_empty_eq env leads h0,
        runPipeline_empty_eq { env with webhookResp := wh } leads h0]
    · rw [runPipeline_run_eq env leads h0,
        runPipeline_run_eq { env with webhookResp := wh } leads h0]
      rfl

theorem sendLeadsToWebhook_contract_witness :
    1 ≤ 5 ∧
    (sendLeadsToWebhook
        [⟨⟨"A", "B", "Owner", "X", "a@x", "1"⟩, "Persona 1"⟩,
         ⟨⟨"C", "D", "HR", "Y", "b@y", "2"⟩, "Persona 4"⟩,
         ⟨⟨"E", "F", "Bar Manager", "Z", "c@z", "3"⟩, "Persona 2"⟩]
        (fun c => if c.lead.email == "b@y" then .status 500 else .status 200)
        5).1
      + (sendLeadsToWebhook
          [⟨⟨"A", "B", "Owner", "X", "a@x", "1"⟩, "Persona 1"⟩,
           ⟨⟨"C", "D", "HR", "Y", "b@y", "2"⟩, "Persona 4"⟩,
           ⟨⟨"E", "F", "Bar Manager", "Z", "c@z", "3"⟩, "Persona 2"⟩]
          (fun c => if c.lead.email == "b@y" then .status 500 else .status 200)
          5).2
      = ([⟨⟨"A", "B", "Owner", "X", "a@x", "1"⟩, "Persona 1"⟩,
          ⟨⟨"C", "D", "HR", "Y", "b@y", "2"⟩, "Persona 4"⟩,
          ⟨⟨"E", "F", "Bar Manager", "Z", "c@z", "3"⟩, "Persona 2"⟩] :
            List ClassifiedRecord).length ∧
    (sendLeadsToWebhook
        [⟨⟨"A", "B", "Owner", "X", "a@x", "1"⟩, "Persona 1"⟩,
         ⟨⟨"C", "D", "HR", "Y", "b@y", "2"⟩, "Persona 4"⟩,
         ⟨⟨"E", "F", "Bar Manager", "Z", "c@z", "3"⟩, "Persona 2"⟩]
        (fun c => if c.lead.email == "b@y" then .status 500 else .status 200)
        5).1 = 2 ∧
    (sendLeadsToWebhook
        [⟨⟨"A", "B", "Owner", "X", "a@x", "1"⟩, "Persona 1"⟩,
         ⟨⟨"C", "D", "HR", "Y", "b@y", "2"⟩, "Persona 4"⟩,
         ⟨⟨"E", "F", "Bar Manager", "Z", "c@z", "3"⟩, "Persona 2"⟩]
        (fun c => if c.lead.email == "b@y" then .status 500 else .status 200)
        5).2 = 1 :=
  ⟨by decide,
    (sendLeadsToWebhook_contract
      [⟨⟨"A", "B", "Owner", "X", "a@x", "1"⟩, "Persona 1"⟩,
       ⟨⟨"C", "D", "HR", "Y", "b@y", "2"⟩, "Persona 4"⟩,
       ⟨⟨"E", "F", "Bar Manager", "Z", "c@z", "3"⟩, "Persona 2"⟩]
      (fun c => if c.lead.email == "b@y" then .status 500 else .status 200)
      5 (by decide)).2.2.1,
    by
      rw [sendLeadsToWebhook_eq _ _ _ (by decide)]
      decide,
    by
      rw [sendLeadsToWebhook_eq _ _ _ (by decide)]
      decide⟩

/-- C9: when every record is a duplicate (the batch is empty after dedup),
the orchestrator short-circuits: the trace holds only the dedup query — no
classification, no insert, no webhook call — and the run's processed
(persisted) and delivered counters are all zero; the numeric summary block
itself is not printed (the code logs a nothing-to-process notice and
returns). -/
theorem runPipeline_short_circuit (env : Env) (leads : List InputRecord)
    (h : (newLeadsOf env leads).length = 0) :
    (runPipeline env leads).trace
      = [.dedupQuery (leads.map (fun l => l.email))] ∧
    (runPipeline env leads).trace.countP isClassifyEvent = 0 ∧
    (runPipeline env leads).trace.countP isInsertEvent = 0 ∧
    (runPipeline env leads).trace.countP isWebhookEvent = 0 ∧
    (runPipeline env leads).processed = 0 ∧
    (runPipeline env leads).webhookSuccessCount = 0 ∧
    (runPipeline env leads).webhookFailCount = 0 ∧
    (runPipeline env leads).summaryShown = false := by
  rw [runPipeline_empty_eq env leads h]
  refine ⟨rfl, ?_, ?_, ?_, rfl, rfl, rfl, rfl⟩ <;>
    simp [List.countP_cons, isClassifyEvent, isInsertEvent, isWebhookEvent]

theorem runPipeline_short_circuit_witness :
    ((newLeadsOf
        ⟨.ok ["a@x"], fun _ => .thrown, .ok, fun _ => .thrown⟩
        [⟨"A", "B", "Owner", "X", "a@x", "1"⟩]).length = 0) ∧
    ((runPipeline
        ⟨.ok ["a@x"], fun _ => .thrown, .ok, fun _ => .thrown⟩
        [⟨"A", "B", "Owner", "X", "a@x", "1"⟩]).trace
      = [.dedupQuery
          (([⟨"A", "B", "Owner", "X", "a@x", "1"⟩] :
            List InputRecord).map (fun l => l.email))] ∧
    (runPipeline
        ⟨.ok ["a@x"], fun _ => .thrown, .ok, fun _ => .thrown⟩
        [⟨"A", "B", "Owner", "X", "a@x", "1"⟩]).trace.countP
        isClassifyEvent = 0 ∧
    (runPipeline
        ⟨.ok ["a@x"], fun _ => .thrown, .ok, fun _ => .thrown⟩
        [⟨"A", "B", "Owner", "X", "a@x", "1"⟩]).trace.countP
        isInsertEvent = 0 ∧
    (runPipeline
        ⟨.ok ["a@x"], fun _ => .thrown, .ok, fun _ => .thrown⟩
        [⟨"A", "B", "Owner", "X", "a@x", "1"⟩]).trace.countP
        isWebhookEvent = 0 ∧
    (runPipeline
        ⟨.ok ["a@x"], fun _ => .thrown, .ok, fun _ => .thrown⟩
        [⟨"A", "B", "Owner", "X", "a@x", "1"⟩]).processed = 0 ∧
    (runPipeline
        ⟨.ok ["a@x"], fun _ => .thrown, .ok, fun _ => .thrown⟩
        [⟨"A", "B", "Owner", "X", "a@x", "1"⟩]).webhookSuccessCount = 0 ∧
    (runPipeline
        ⟨.ok ["a@x"], fun _ => .thrown, .ok, fun _ => .thrown⟩
        [⟨"A", "B", "Owner", "X", "a@x", "1"⟩]).webhookFailCount = 0 ∧
    (runPipeline
        ⟨.ok ["a@x"], fun _ => .thrown, .ok, fun _ => .thrown⟩
        [⟨"A", "B", "Owner", "X", "a@x", "1"⟩]).summaryShown = false) :=
  ⟨by decide,
    runPipeline_short_circuit
      ⟨.ok ["a@x"], fun _ => .thrown, .ok, fun _ => .thrown⟩
      [⟨"A", "B", "Owner", "X", "a@x", "1"⟩] (by decide)⟩

/-- C10: dedup checks each record only against the store's existing-email
set, never against the rest of the batch: records sharing an email that is
absent from the store are all kept (the kept set has as many records with
that email as the input batch), and the single bulk insert's row payload
carries all of them. -/
theorem withinBatch_duplicates_not_suppressed (leads : List InputRecord)
    (emails : List String) (e : String) (he : emails.contains e = false) :
    ((filterDuplicates leads (.ok emails)).newLeads.countP
        (fun l => l.email == e)
      = leads.countP (fun l => l.email == e)) ∧
    (∀ env : Env, env.dedupResp = .ok emails →
      (newLeadsOf env leads).length ≠ 0 →
      (runPipeline env leads).trace.filter isInsertEvent
          = [Event.insertCall ((classifiedOf env leads).map toRow)] ∧
      ((classifiedOf env leads).map toRow).countP (fun r => r.email == e)
        = leads.countP (fun l => l.email == e)) := by
  constructor
  · rw [filterDuplicates_ok]
    exact countP_email_filter_of_not_existing emails e he leads
  · intro env henv hne
    refine ⟨trace_insert_events env leads hne, ?_⟩
    rw [classifiedOf_eq_map, List.map_map, List.countP_map]
    have harg :
        ((fun r : StoredRow => r.email == e) ∘ toRow ∘
          fun lead => (⟨lead, classifyLead (env.classifierResp lead)⟩ :
            ClassifiedRecord))
          = fun l : InputRecord => l.email == e := rfl
    rw [harg, newLeadsOf, henv, filterDuplicates_ok]
    exact countP_email_filter_of_not_existing emails e he leads

theorem withinBatch_duplicates_not_suppressed_witness :
    ((["z@z"] : List String).contains "a@x" = false) ∧
    (((filterDuplicates
        [⟨"A", "B", "Owner", "X", "a@x", "1"⟩,
         ⟨"C", "D", "HR", "Y", "a@x", "2"⟩]
        (.ok ["z@z"])).newLeads.countP (fun l => l.email == "a@x")
      = ([⟨"A", "B", "Owner", "X", "a@x", "1"⟩,
          ⟨"C", "D", "HR", "Y", "a@x", "2"⟩] : List InputRecord).countP
          (fun l => l.email == "a@x")) ∧
    (∀ env : Env, env.dedupResp = .ok ["z@z"] →
      (newLeadsOf env
          [⟨"A", "B", "Owner", "X", "a@x", "1"⟩,
           ⟨"C", "D", "HR", "Y", "a@x", "2"⟩]).length ≠ 0 →
      (runPipeline env
          [⟨"A", "B", "Owner", "X", "a@x", "1"⟩,
           ⟨"C", "D", "HR", "Y", "a@x", "2"⟩]).trace.filter isInsertEvent
          = [Event.insertCall
              ((classifiedOf env
                  [⟨"A", "B", "Owner", "X", "a@x", "1"⟩,
                   ⟨"C", "D", "HR", "Y", "a@x", "2"⟩]).map toRow)] ∧
      ((classifiedOf env
          [⟨"A", "B", "Owner", "X", "a@x", "1"⟩,
           ⟨"C", "D", "HR", "Y", "a@x", "2"⟩]).map toRow).countP
          (fun r => r.email == "a@x")
        = ([⟨"A", "B", "Owner", "X", "a@x", "1"⟩,
            ⟨"C", "D", "HR", "Y", "a@x", "2"⟩] : List InputRecord).countP
            (fun l => l.email == "a@x"))) :=
  ⟨by decide,
    withinBatch_duplicates_not_suppressed
      [⟨"A", "B", "Owner", "X", "a@x", "1"⟩,
       ⟨"C", "D", "HR", "Y", "a@x", "2"⟩]
      ["z@z"] "a@x" (by decide)⟩

end LeadPipeline
